import Mathlib

/-!
# Verification of the order-placement core of the CRM backend

A shallow embedding of `crm/models.py` and `crm/schema.py`: the record
store is a state of rows, the ORM calls become explicit state-passing
functions, and `transaction.atomic` becomes a rollback wrapper around the
mutation body.  Monetary amounts (fixed-point decimals in the source) are
embedded as `Int` (an exact number of currency minor units); `stock`
(a `PositiveIntegerField`, i.e. a non-negative machine integer) is embedded
as `Int` so that the non-negativity invariant is a theorem rather than a
typing artefact.  Each store write may fail with a transient store failure
(lock timeout, connection failure); this is modelled by a write budget
threaded through the body: `none` means the store never fails, `some n`
means the `n`-th write onward fails.
-/

namespace CRM

/-- A customer row: `Customer` in `crm/models.py` (id, name, unique email,
optional phone). -/
structure Customer where
  id : Nat
  name : String
  email : String
  phone : Option String
deriving DecidableEq, Repr

/-- A product row: `Product` in `crm/models.py` (id, name, unit price,
stock count). -/
structure Product where
  id : Nat
  name : String
  price : Int
  stock : Int
deriving DecidableEq, Repr

/-- An order row: `Order` in `crm/models.py` (id, owning customer,
derived total).  The many-to-many product associations live in a separate
through table (`St.orderProducts`), as in the relational schema. -/
structure OrderRow where
  id : Nat
  customerId : Nat
  totalAmount : Int
deriving DecidableEq, Repr

/-- The record store: the four tables backing the models.  `orderProducts`
is the many-to-many through table of `Order.products`, a set of
(order id, product id) pairs. -/
structure St where
  customers : List Customer
  products : List Product
  orders : List OrderRow
  orderProducts : List (Nat × Nat)
deriving DecidableEq, Repr

/-- The error taxonomy of the mutations in `crm/schema.py` (each is raised
as an exception with a message; the out-of-stock message names the
product). -/
inductive Err where
  | invalidCustomer
  | emptyProductList
  | invalidProductIds
  | outOfStock (name : String)
  | transientStoreFailure
deriving DecidableEq, Repr

/-- `Customer.objects.get(id=customer_id)`: the row with the given id, if
any. -/
def getCustomer (s : St) (cid : Nat) : Option Customer :=
  s.customers.find? (fun c => decide (c.id = cid))

/-- `Product.objects.select_for_update().filter(id__in=product_ids)`: the
product rows whose id occurs in the request list, in table (row) order —
an unordered queryset iterates in the store's row order, not in the order
the ids appear in the request. -/
def selectForUpdate (s : St) (pids : List Nat) : List Product :=
  s.products.filter (fun p => decide (p.id ∈ pids))

/-- One store write of an order row (a `super().save()` on `Order`):
update the row with that id if present, insert at the end otherwise. -/
def upsertOrder (rows : List OrderRow) (r : OrderRow) : List OrderRow :=
  if rows.any (fun o => decide (o.id = r.id)) then
    rows.map (fun o => if o.id = r.id then r else o)
  else rows ++ [r]

/-- `self.products.all()` for the order with id `oid`: the product rows
associated through the through table (the auto-generated through table has
a uniqueness constraint on the pair, so each associated product occurs
once). -/
def orderProductRows (s : St) (oid : Nat) : List Product :=
  s.products.filter (fun p => decide ((oid, p.id) ∈ s.orderProducts))

/-- `Order.calculate_total` (`crm/models.py`): the sum of the unit prices
of the associated products. -/
def calculate_total (s : St) (oid : Nat) : Int :=
  ((orderProductRows s oid).map (fun p => p.price)).sum

/-- The write budget: `none` = the store never fails; `some n` = the next
`n` writes succeed and the one after fails (`TransientStoreFailure`). -/
def tick : Option Nat → Except Err (Option Nat)
  | none => Except.ok none
  | some 0 => Except.error Err.transientStoreFailure
  | some (n + 1) => Except.ok (some n)

/-- The data effect of the overridden `Order.save` (`crm/models.py`):
write the row with the caller-visible `total_amount`, recompute the total
from the current in-store associated products, and write it back
(`update_fields=["total_amount"]`).  Returns the new store and the
recomputed total. -/
def orderSaveData (s : St) (oid cid : Nat) (t : Int) : St × Int :=
  let sA : St := { s with orders := upsertOrder s.orders ⟨oid, cid, t⟩ }
  let t1 := calculate_total sA oid
  ({ sA with orders := upsertOrder sA.orders ⟨oid, cid, t1⟩ }, t1)

/-- `Order.save` with its two store writes charged to the budget. -/
def orderSave (s : St) (b : Option Nat) (oid cid : Nat) (t : Int) :
    Except Err (St × Option Nat × Int) :=
  match tick b with
  | Except.error e => Except.error e
  | Except.ok b1 =>
    match tick b1 with
    | Except.error e => Except.error e
    | Except.ok b2 => Except.ok ((orderSaveData s oid cid t).1, b2, (orderSaveData s oid cid t).2)

/-- The data effect of `order.products.set(products)`: replace the through
rows of this order by one pair per given product. -/
def setData (s : St) (oid : Nat) (ps : List Product) : St :=
  { s with
    orderProducts :=
      s.orderProducts.filter (fun pr => decide (pr.1 ≠ oid))
        ++ ps.map (fun p => (oid, p.id)) }

/-- `order.products.set(products)` with its store write charged to the
budget. -/
def setOrderProducts (s : St) (b : Option Nat) (oid : Nat) (ps : List Product) :
    Except Err (St × Option Nat) :=
  match tick b with
  | Except.error e => Except.error e
  | Except.ok b1 => Except.ok (setData s oid ps, b1)

/-- One iteration of the decrement loop, acting on a table row: writing
the cached product object `p` with `p.stock - 1` replaces the row with
`p`'s id. -/
def decStep (p q : Product) : Product :=
  if q.id = p.id then { p with stock := p.stock - 1 } else q

/-- The decrement loop of `CreateOrder.mutate`: for each resolved product
(with its cached snapshot fields), one store write of the decremented
row. -/
def decrementAll : St → Option Nat → List Product → Except Err (St × Option Nat)
  | s, b, [] => Except.ok (s, b)
  | s, b, p :: rest =>
    match tick b with
    | Except.error e => Except.error e
    | Except.ok b1 =>
      decrementAll { s with products := s.products.map (decStep p) } b1 rest

/-- The pure cumulative effect of the decrement loop on the product table
(used to state what `decrementAll` did). -/
def decList (T : List Product) (ps : List Product) : List Product :=
  ps.foldl (fun U p => U.map (decStep p)) T

/-- The primary key the store assigns to the inserted order: larger than
every existing order id. -/
def freshOrderId (s : St) : Nat :=
  (s.orders.map (fun o => o.id)).foldr max 0 + 1

/-- The body of `CreateOrder.mutate` (`crm/schema.py`): resolve the
customer, reject an empty list, resolve the products under lock, check the
resolved count and per-product stock (in queryset order), then insert the
order, set its associations, decrement each stock, and save the order
again to derive the total.  On success returns the final store, the
returned order row, and the associated product ids. -/
def createOrderBody (s : St) (b : Option Nat) (cid : Nat) (pids : List Nat) :
    Except Err (St × OrderRow × List Nat) :=
  match getCustomer s cid with
  | none => Except.error Err.invalidCustomer
  | some customer =>
    if pids = [] then Except.error Err.emptyProductList
    else
      if (selectForUpdate s pids).length ≠ pids.length then
        Except.error Err.invalidProductIds
      else
        match (selectForUpdate s pids).find? (fun p => decide (p.stock ≤ 0)) with
        | some p => Except.error (Err.outOfStock p.name)
        | none =>
          match orderSave s b (freshOrderId s) customer.id 0 with
          | Except.error e => Except.error e
          | Except.ok (s1, b1, t0) =>
            match setOrderProducts s1 b1 (freshOrderId s) (selectForUpdate s pids) with
            | Except.error e => Except.error e
            | Except.ok (s2, b2) =>
              match decrementAll s2 b2 (selectForUpdate s pids) with
              | Except.error e => Except.error e
              | Except.ok (s3, b3) =>
                match orderSave s3 b3 (freshOrderId s) customer.id t0 with
                | Except.error e => Except.error e
                | Except.ok (s4, _, total) =>
                  Except.ok (s4, ⟨freshOrderId s, customer.id, total⟩,
                    (selectForUpdate s pids).map (fun p => p.id))

/-- The outcome of a `CreateOrder` call: the store after the call, plus
either the returned order (with its associated product ids) or the
error. -/
inductive CreateOrderResult where
  | ok (s : St) (order : OrderRow) (productIds : List Nat)
  | err (s : St) (e : Err)
deriving DecidableEq, Repr

/-- `CreateOrder.mutate` under `@transaction.atomic`: if the body raises
anywhere, every store effect is rolled back and the store is as before the
call. -/
def createOrder (s : St) (b : Option Nat) (cid : Nat) (pids : List Nat) :
    CreateOrderResult :=
  match createOrderBody s b cid pids with
  | Except.ok (s', o, rids) => CreateOrderResult.ok s' o rids
  | Except.error e => CreateOrderResult.err s e

/-- The store after a `CreateOrder` call, success or failure. -/
def resultState : CreateOrderResult → St
  | CreateOrderResult.ok s _ _ => s
  | CreateOrderResult.err s _ => s

/-- Modelled from the spec: re-pricing a product afterward ("is not
updated if products are re-priced afterward") — a direct update of the
product row's unit price in the record store.  No operation under `src/`
re-prices an existing product. -/
def repriceProduct (s : St) (pid : Nat) (newPrice : Int) : St :=
  { s with
    products := s.products.map
      (fun q => if q.id = pid then { q with price := newPrice } else q) }

/-- One entry of the `customers` argument of `BulkCreateCustomers`
(`CustomerInput` in `crm/schema.py`). -/
structure CustomerInput where
  name : String
  email : String
  phone : Option String
deriving DecidableEq, Repr

/-- The primary key the store assigns to an inserted customer: larger than
every existing customer id. -/
def freshCustomerId (s : St) : Nat :=
  (s.customers.map (fun c => c.id)).foldr max 0 + 1

/-- `BulkCreateCustomers.mutate` (`crm/schema.py`): iterate the input list
threading the store.  An item whose email already exists in the current
store (existing rows plus the ones created earlier in this same call) adds
one error entry and is skipped; an item passing the model validation
(`full_clean`, here the parameter `fc` — framework code outside this
repository) is inserted and added to the created list; a validation
failure adds one error entry (standing in for `str(e)` of the raised
`ValidationError`).  Returns the final store, the created customers, and
the error strings, each in loop order. -/
def bulkCreateCustomers (fc : CustomerInput → Bool) :
    St → List CustomerInput → St × List Customer × List String
  | s, [] => (s, [], [])
  | s, d :: rest =>
    if s.customers.any (fun c => decide (c.email = d.email)) then
      let r := bulkCreateCustomers fc s rest
      (r.1, r.2.1, ("Duplicate email: " ++ d.email) :: r.2.2)
    else if fc d then
      let r := bulkCreateCustomers fc
        { s with customers :=
            s.customers ++ [⟨freshCustomerId s, d.name, d.email, d.phone⟩] } rest
      (r.1, ⟨freshCustomerId s, d.name, d.email, d.phone⟩ :: r.2.1, r.2.2)
    else
      let r := bulkCreateCustomers fc s rest
      (r.1, r.2.1, ("Validation error: " ++ d.email) :: r.2.2)

/-! ## Concrete stores used to instantiate the theorems -/

/-- A store with one customer and two in-stock products (the scenario of
the spec: P1 at 100 with stock 2, P2 at 50 with stock 1). -/
def exSt : St :=
  ⟨[⟨1, "Alice", "alice@example.com", none⟩],
   [⟨1, "P1", 100, 2⟩, ⟨2, "P2", 50, 1⟩], [], []⟩

/-- The store `exSt` after the successful call `createOrder exSt none 1 [1, 2]`. -/
def exSt' : St :=
  ⟨[⟨1, "Alice", "alice@example.com", none⟩],
   [⟨1, "P1", 100, 1⟩, ⟨2, "P2", 50, 0⟩], [⟨1, 1, 150⟩], [(1, 1), (1, 2)]⟩

/-- A store whose two products are both out of stock, with row order 1, 2. -/
def c6St : St :=
  ⟨[⟨1, "Ann", "ann@x.y", none⟩], [⟨1, "A", 5, 0⟩, ⟨2, "B", 5, 0⟩], [], []⟩

/-- A store with one in-stock product, for the re-pricing scenario. -/
def c7St : St :=
  ⟨[⟨1, "Ann", "ann@x.y", none⟩], [⟨1, "P", 100, 5⟩], [], []⟩

/-- The store `c7St` after the successful call `createOrder c7St none 1 [1]`. -/
def c7St' : St :=
  ⟨[⟨1, "Ann", "ann@x.y", none⟩], [⟨1, "P", 100, 4⟩], [⟨1, 1, 100⟩], [(1, 1)]⟩

/-- A store with one out-of-stock product. -/
def c5St : St :=
  ⟨[⟨1, "Ann", "ann@x.y", none⟩], [⟨1, "P", 10, 0⟩], [], []⟩

/-- A store with one in-stock product (for the duplicate-id request). -/
def c10St : St :=
  ⟨[⟨1, "Ann", "ann@x.y", none⟩], [⟨1, "P", 10, 5⟩], [], []⟩

/-- The empty store. -/
def emptySt : St := ⟨[], [], [], []⟩

/-- A name-nonempty validation predicate standing in for `full_clean`. -/
def exFc : CustomerInput → Bool := fun d => decide (d.name ≠ "")

/-- A store with one registered customer, for the bulk-registration runs. -/
def bulkSt : St := ⟨[⟨1, "Eve", "e@x.y", none⟩], [], [], []⟩

/-- A valid bulk-registration input. -/
def inN1 : CustomerInput := ⟨"N1", "n1@x.y", none⟩

/-- A bulk-registration input failing validation (empty name). -/
def inBad : CustomerInput := ⟨"", "bad@x.y", none⟩

/-- A second valid bulk-registration input. -/
def inN2 : CustomerInput := ⟨"N2", "n2@x.y", none⟩

/-- A third valid bulk-registration input. -/
def inN3 : CustomerInput := ⟨"N3", "n3@x.y", none⟩

/-! ## Basic facts about the store operations -/

theorem mem_selectForUpdate {s : St} {pids : List Nat} {q : Product} :
    q ∈ selectForUpdate s pids ↔ q ∈ s.products ∧ q.id ∈ pids := by
  simp [selectForUpdate, List.mem_filter]

theorem selectForUpdate_ids_nodup {s : St} {pids : List Nat}
    (hnd : (s.products.map (fun p => p.id)).Nodup) :
    ((selectForUpdate s pids).map (fun p => p.id)).Nodup :=
  List.Nodup.sublist ((List.filter_sublist s.products).map (fun p => p.id)) hnd

theorem mem_le_foldr_max (l : List Nat) (x : Nat) (hx : x ∈ l) :
    x ≤ l.foldr max 0 := by
  induction l with
  | nil => cases hx
  | cons a t ih =>
    rcases List.mem_cons.mp hx with rfl | hx'
    · exact Nat.le_max_left _ _
    · exact Nat.le_trans (ih hx') (Nat.le_max_right _ _)

theorem id_ne_freshOrderId {s : St} {r : OrderRow} (hr : r ∈ s.orders) :
    r.id ≠ freshOrderId s := by
  have hle : r.id ≤ (s.orders.map (fun o => o.id)).foldr max 0 :=
    mem_le_foldr_max _ _ (List.mem_map_of_mem _ hr)
  exact Nat.ne_of_lt (Nat.lt_succ_of_le hle)

theorem upsertOrder_not_mem (rows : List OrderRow) (r : OrderRow)
    (h : ∀ o ∈ rows, o.id ≠ r.id) : upsertOrder rows r = rows ++ [r] := by
  unfold upsertOrder
  rw [if_neg]
  simpa using h

theorem upsertOrder_snoc (rows : List OrderRow) (r r' : OrderRow)
    (h : ∀ o ∈ rows, o.id ≠ r'.id) (hid : r.id = r'.id) :
    upsertOrder (rows ++ [r]) r' = rows ++ [r'] := by
  unfold upsertOrder
  rw [if_pos]
  · rw [List.map_append]
    congr 1
    · have hmap : rows.map (fun o => if o.id = r'.id then r' else o)
          = rows.map (fun o => o) :=
        List.map_congr_left (fun o ho => if_neg (h o ho))
      simpa using hmap
    · simp [hid]
  · simp only [List.any_eq_true, decide_eq_true_eq]
    exact ⟨r, by simp, hid⟩

theorem calculate_total_orders_irrel (s : St) (rows : List OrderRow) (oid : Nat) :
    calculate_total { s with orders := rows } oid = calculate_total s oid := rfl

theorem orderSaveData_fresh (s : St) (oid cid : Nat) (t : Int)
    (hfresh : ∀ o ∈ s.orders, o.id ≠ oid) :
    (orderSaveData s oid cid t).1.customers = s.customers ∧
    (orderSaveData s oid cid t).1.products = s.products ∧
    (orderSaveData s oid cid t).1.orderProducts = s.orderProducts ∧
    (orderSaveData s oid cid t).1.orders
      = s.orders ++ [⟨oid, cid, calculate_total s oid⟩] ∧
    (orderSaveData s oid cid t).2 = calculate_total s oid := by
  unfold orderSaveData
  have h1 : upsertOrder s.orders ⟨oid, cid, t⟩ = s.orders ++ [⟨oid, cid, t⟩] :=
    upsertOrder_not_mem _ _ hfresh
  refine ⟨rfl, rfl, rfl, ?_, rfl⟩
  simp only [h1]
  exact upsertOrder_snoc _ _ _ hfresh rfl

theorem orderSaveData_existing (s : St) (base : List OrderRow) (r : OrderRow)
    (oid cid : Nat) (t : Int)
    (hbase : s.orders = base ++ [r]) (hr : r.id = oid)
    (hfresh : ∀ o ∈ base, o.id ≠ oid) :
    (orderSaveData s oid cid t).1.customers = s.customers ∧
    (orderSaveData s oid cid t).1.products = s.products ∧
    (orderSaveData s oid cid t).1.orderProducts = s.orderProducts ∧
    (orderSaveData s oid cid t).1.orders
      = base ++ [⟨oid, cid, calculate_total s oid⟩] ∧
    (orderSaveData s oid cid t).2 = calculate_total s oid := by
  unfold orderSaveData
  have h1 : upsertOrder s.orders ⟨oid, cid, t⟩ = base ++ [⟨oid, cid, t⟩] := by
    rw [hbase]
    exact upsertOrder_snoc _ _ _ hfresh hr
  refine ⟨rfl, rfl, rfl, ?_, rfl⟩
  simp only [h1]
  exact upsertOrder_snoc _ _ _ hfresh rfl

/-! ## Characterizations of the budgeted operations -/

theorem orderSave_ok {s : St} {b : Option Nat} {oid cid : Nat} {t : Int}
    {s' : St} {b' : Option Nat} {t' : Int}
    (h : orderSave s b oid cid t = Except.ok (s', b', t')) :
    s' = (orderSaveData s oid cid t).1 ∧ t' = (orderSaveData s oid cid t).2 := by
  rcases b with _ | (_ | (_ | n)) <;>
    simp only [orderSave, tick, Except.ok.injEq, Prod.mk.injEq] at h <;>
    first
      | (obtain ⟨h1, h2, h3⟩ := h; exact ⟨h1.symm, h3.symm⟩)
      | cases h

theorem setOrderProducts_ok {s : St} {b : Option Nat} {oid : Nat}
    {ps : List Product} {s' : St} {b' : Option Nat}
    (h : setOrderProducts s b oid ps = Except.ok (s', b')) :
    s' = setData s oid ps := by
  rcases b with _ | (_ | n) <;>
    simp only [setOrderProducts, tick, Except.ok.injEq, Prod.mk.injEq] at h <;>
    first
      | (obtain ⟨h1, h2⟩ := h; exact h1.symm)
      | cases h

theorem decrementAll_ok {ps : List Product} :
    ∀ {s : St} {b : Option Nat} {s' : St} {b' : Option Nat},
    decrementAll s b ps = Except.ok (s', b') →
    s'.customers = s.customers ∧ s'.orders = s.orders ∧
    s'.orderProducts = s.orderProducts ∧ s'.products = decList s.products ps := by
  induction ps with
  | nil =>
    intro s b s' b' h
    simp only [decrementAll, Except.ok.injEq, Prod.mk.injEq] at h
    obtain ⟨h1, h2⟩ := h
    subst h1
    exact ⟨rfl, rfl, rfl, rfl⟩
  | cons p rest ih =>
    intro s b s' b' h
    simp only [decrementAll] at h
    rcases b with _ | (_ | n) <;> simp only [tick] at h
    · exact ih h
    · cases h
    · exact ih h

/-! ## What the decrement loop does to the product table -/

theorem decList_eq_map (ps : List Product) :
    ∀ T : List Product,
    decList T ps = T.map (fun q => ps.foldl (fun r p => decStep p r) q) := by
  induction ps with
  | nil =>
    intro T
    simp [decList]
  | cons p rest ih =>
    intro T
    rw [show decList T (p :: rest) = decList (T.map (decStep p)) rest from rfl,
      ih, List.map_map]
    exact List.map_congr_left (fun q _ => rfl)

theorem foldl_decStep_not_mem (ps : List Product) (q : Product)
    (h : ∀ p ∈ ps, p.id ≠ q.id) :
    ps.foldl (fun r p => decStep p r) q = q := by
  induction ps with
  | nil => rfl
  | cons p rest ih =>
    have hstep : decStep p q = q :=
      if_neg (fun hqp => h p (List.mem_cons_self p rest) hqp.symm)
    rw [show (p :: rest).foldl (fun r p => decStep p r) q
        = rest.foldl (fun r p => decStep p r) (decStep p q) from rfl, hstep]
    exact ih (fun r hr => h r (List.mem_cons_of_mem p hr))

theorem foldl_decStep_mem (ps : List Product) (q : Product)
    (hnd : (ps.map (fun p => p.id)).Nodup) (hq : q ∈ ps) :
    ps.foldl (fun r p => decStep p r) q = { q with stock := q.stock - 1 } := by
  induction ps with
  | nil => cases hq
  | cons p rest ih =>
    rw [List.map_cons, List.nodup_cons] at hnd
    obtain ⟨hpid, hrest⟩ := hnd
    rcases List.mem_cons.mp hq with rfl | hq'
    · have hstep : decStep q q = { q with stock := q.stock - 1 } := if_pos rfl
      rw [show (q :: rest).foldl (fun r p => decStep p r) q
          = rest.foldl (fun r p => decStep p r) (decStep q q) from rfl, hstep]
      exact foldl_decStep_not_mem rest _
        (fun r hr hrq => hpid (hrq ▸ List.mem_map_of_mem (fun p => p.id) hr))
    · have hpq : q.id ≠ p.id := by
        intro hqp
        exact hpid (hqp ▸ List.mem_map_of_mem (fun p => p.id) hq')
      have hstep : decStep p q = q := if_neg hpq
      rw [show (p :: rest).foldl (fun r p => decStep p r) q
          = rest.foldl (fun r p => decStep p r) (decStep p q) from rfl, hstep]
      exact ih hrest hq'

theorem decList_select (s : St) (pids : List Nat)
    (hnd : (s.products.map (fun p => p.id)).Nodup) :
    decList s.products (selectForUpdate s pids)
      = s.products.map
          (fun q => if q.id ∈ pids then { q with stock := q.stock - 1 } else q) := by
  rw [decList_eq_map]
  refine List.map_congr_left (fun q hq => ?_)
  by_cases hmem : q.id ∈ pids
  · rw [foldl_decStep_mem _ _ (selectForUpdate_ids_nodup hnd)
      (mem_selectForUpdate.mpr ⟨hq, hmem⟩), if_pos hmem]
  · rw [if_neg hmem]
    exact foldl_decStep_not_mem _ _
      (fun p hp hpq => hmem (hpq ▸ (mem_selectForUpdate.mp hp).2))

/-! ## Counting: a resolved count equal to the request length forces
distinct, all-resolving ids -/

theorem resolve_count (s : St) (pids : List Nat)
    (hnd : (s.products.map (fun p => p.id)).Nodup)
    (hlen : (selectForUpdate s pids).length = pids.length) :
    pids.Nodup ∧ ∀ x ∈ pids, x ∈ (selectForUpdate s pids).map (fun p => p.id) := by
  set l := (selectForUpdate s pids).map (fun p => p.id) with hl
  have hlnd : l.Nodup := selectForUpdate_ids_nodup hnd
  have hsub : ∀ x ∈ l, x ∈ pids := by
    intro x hx
    obtain ⟨p, hp, rfl⟩ := List.mem_map.mp hx
    exact (mem_selectForUpdate.mp hp).2
  have hlen' : l.length = pids.length := by
    rw [hl, List.length_map]; exact hlen
  have hfsub : l.toFinset ⊆ pids.toFinset := by
    intro x hx
    exact List.mem_toFinset.mpr (hsub x (List.mem_toFinset.mp hx))
  have hcard_l : l.toFinset.card = l.length := by
    rw [List.card_toFinset, List.dedup_eq_self.mpr hlnd]
  have hcard_le : pids.toFinset.card ≤ l.toFinset.card := by
    calc pids.toFinset.card = pids.dedup.length := List.card_toFinset pids
      _ ≤ pids.length := List.Sublist.length_le (List.dedup_sublist pids)
      _ = l.length := hlen'.symm
      _ = l.toFinset.card := hcard_l.symm
  have hfeq : l.toFinset = pids.toFinset :=
    Finset.eq_of_subset_of_card_le hfsub hcard_le
  constructor
  · have hdl : pids.dedup.length = pids.length := by
      have h1 : pids.toFinset.card = l.toFinset.card :=
        le_antisymm hcard_le (Finset.card_le_card hfsub)
      calc pids.dedup.length = pids.toFinset.card := (List.card_toFinset pids).symm
        _ = l.toFinset.card := h1
        _ = l.length := hcard_l
        _ = pids.length := hlen'
    exact List.dedup_eq_self.mp
      (List.Sublist.eq_of_length (List.dedup_sublist pids) hdl)
  · intro x hx
    exact List.mem_toFinset.mp (hfeq ▸ List.mem_toFinset.mpr hx)

/-! ## The derived total at the end of the transaction -/

theorem calculate_total_final (s : St) (pids : List Nat) (oid : Nat) (s3 : St)
    (hp : s3.products = s.products.map
      (fun q => if q.id ∈ pids then { q with stock := q.stock - 1 } else q))
    (hop : s3.orderProducts = s.orderProducts.filter (fun pr => decide (pr.1 ≠ oid))
      ++ (selectForUpdate s pids).map (fun p => (oid, p.id))) :
    calculate_total s3 oid = ((selectForUpdate s pids).map (fun p => p.price)).sum := by
  have hpair : ∀ x : Nat, ((oid, x) ∈ s3.orderProducts)
      ↔ x ∈ (selectForUpdate s pids).map (fun p => p.id) := by
    intro x
    rw [hop]
    simp only [List.mem_append, List.mem_filter, List.mem_map, decide_eq_true_eq]
    constructor
    · rintro (⟨-, hne⟩ | ⟨p, hp', hpx⟩)
      · exact absurd rfl hne
      · exact ⟨p, hp', congrArg Prod.snd hpx⟩
    · rintro ⟨p, hp', rfl⟩
      exact Or.inr ⟨p, hp', rfl⟩
  unfold calculate_total orderProductRows
  rw [hp, List.filter_map]
  have hfil : s.products.filter
      ((fun p => decide ((oid, p.id) ∈ s3.orderProducts))
        ∘ (fun q => if q.id ∈ pids then { q with stock := q.stock - 1 } else q))
      = selectForUpdate s pids := by
    refine List.filter_congr (fun q hq => ?_)
    have hid : ((if q.id ∈ pids then { q with stock := q.stock - 1 } else q) :
        Product).id = q.id := by
      by_cases h : q.id ∈ pids <;> simp [h]
    simp only [Function.comp, hid]
    rw [decide_eq_decide.mpr ((hpair q.id).trans ?_)]
    constructor
    · intro hx
      obtain ⟨p, hp', hpx⟩ := List.mem_map.mp hx
      exact hpx ▸ (mem_selectForUpdate.mp hp').2
    · intro hx
      exact List.mem_map.mpr ⟨q, mem_selectForUpdate.mpr ⟨hq, hx⟩, rfl⟩
  rw [hfil, List.map_map]
  congr 1
  refine List.map_congr_left (fun q _ => ?_)
  by_cases h : q.id ∈ pids <;> simp [h]

/-! ## The two top-level characterizations of a `CreateOrder` call -/

/-- Rollback: a failed `CreateOrder` call (any error, anywhere in the body)
leaves the store exactly as it was — the `@transaction.atomic` wrapper. -/
theorem createOrder_err_state {s : St} {b : Option Nat} {cid : Nat} {pids : List Nat}
    {s2 : St} {e : Err}
    (h : createOrder s b cid pids = CreateOrderResult.err s2 e) : s2 = s := by
  unfold createOrder at h
  split at h
  · cases h
  · cases h; rfl

/-- The success characterization of `CreateOrder.mutate`: under a store with
unique product ids, a successful call pins down the customer, the validation
facts, the returned order, and every component of the final store. -/
theorem createOrder_ok_spec {s : St} {b : Option Nat} {cid : Nat} {pids : List Nat}
    {s' : St} {o : OrderRow} {rids : List Nat}
    (hnd : (s.products.map (fun p => p.id)).Nodup)
    (h : createOrder s b cid pids = CreateOrderResult.ok s' o rids) :
    ∃ c, getCustomer s cid = some c ∧
      o.id = freshOrderId s ∧ o.customerId = c.id ∧ pids ≠ [] ∧
      (selectForUpdate s pids).length = pids.length ∧
      (∀ p ∈ selectForUpdate s pids, 0 < p.stock) ∧
      rids = (selectForUpdate s pids).map (fun p => p.id) ∧
      o.totalAmount = ((selectForUpdate s pids).map (fun p => p.price)).sum ∧
      s'.customers = s.customers ∧
      s'.orders = s.orders ++ [o] ∧
      s'.orderProducts = s.orderProducts.filter (fun pr => decide (pr.1 ≠ o.id))
        ++ rids.map (fun x => (o.id, x)) ∧
      s'.products = s.products.map
        (fun q => if q.id ∈ pids then { q with stock := q.stock - 1 } else q) := by
  have hbody : createOrderBody s b cid pids = Except.ok (s', o, rids) := by
    unfold createOrder at h
    cases hb : createOrderBody s b cid pids with
    | ok v =>
      obtain ⟨vs, vo, vr⟩ := v
      rw [hb] at h
      cases h
      rfl
    | error e =>
      rw [hb] at h
      cases h
  unfold createOrderBody at hbody
  split at hbody
  · cases hbody
  rename_i customer hcust
  split at hbody
  · cases hbody
  rename_i hpne
  split at hbody
  · cases hbody
  rename_i hlen_ne
  split at hbody
  · cases hbody
  rename_i hfind
  split at hbody
  · cases hbody
  rename_i s1 b1 t0 h5
  split at hbody
  · cases hbody
  rename_i s2 b2 h6
  split at hbody
  · cases hbody
  rename_i s3 b3 h7
  split at hbody
  · cases hbody
  rename_i s4 bx total h8
  simp only [Except.ok.injEq, Prod.mk.injEq] at hbody
  obtain ⟨rfl, rfl, rfl⟩ := hbody
  have hfresh : ∀ r ∈ s.orders, r.id ≠ freshOrderId s :=
    fun r hr => id_ne_freshOrderId hr
  obtain ⟨hs1, ht0⟩ := orderSave_ok h5
  obtain ⟨hc1, hp1, hop1, hor1, ht1⟩ :=
    orderSaveData_fresh s (freshOrderId s) customer.id 0 hfresh
  have hs1c : s1.customers = s.customers := by rw [hs1]; exact hc1
  have hs1p : s1.products = s.products := by rw [hs1]; exact hp1
  have hs1op : s1.orderProducts = s.orderProducts := by rw [hs1]; exact hop1
  have hs1or : s1.orders
      = s.orders ++ [⟨freshOrderId s, customer.id, calculate_total s (freshOrderId s)⟩] := by
    rw [hs1]; exact hor1
  have ht0v : t0 = calculate_total s (freshOrderId s) := by rw [ht0]; exact ht1
  have hs2 := setOrderProducts_ok h6
  have hs2c : s2.customers = s.customers := by rw [hs2]; exact hs1c
  have hs2p : s2.products = s.products := by rw [hs2]; exact hs1p
  have hs2or : s2.orders
      = s.orders ++ [⟨freshOrderId s, customer.id, calculate_total s (freshOrderId s)⟩] := by
    rw [hs2]; exact hs1or
  have hs2op : s2.orderProducts
      = s.orderProducts.filter (fun pr => decide (pr.1 ≠ freshOrderId s))
        ++ (selectForUpdate s pids).map (fun p => (freshOrderId s, p.id)) := by
    rw [hs2]
    simp only [setData]
    rw [hs1op]
  obtain ⟨hdc, hdor, hdop, hdp⟩ := decrementAll_ok h7
  have hs3c : s3.customers = s.customers := hdc.trans hs2c
  have hs3or : s3.orders
      = s.orders ++ [⟨freshOrderId s, customer.id, calculate_total s (freshOrderId s)⟩] :=
    hdor.trans hs2or
  have hs3op : s3.orderProducts
      = s.orderProducts.filter (fun pr => decide (pr.1 ≠ freshOrderId s))
        ++ (selectForUpdate s pids).map (fun p => (freshOrderId s, p.id)) :=
    hdop.trans hs2op
  have hs3p : s3.products = s.products.map
      (fun q => if q.id ∈ pids then { q with stock := q.stock - 1 } else q) := by
    rw [hdp, hs2p]
    exact decList_select s pids hnd
  obtain ⟨hs4, htot⟩ := orderSave_ok h8
  obtain ⟨hc2, hp2, hop2, hor2, ht2⟩ :=
    orderSaveData_existing s3 s.orders
      ⟨freshOrderId s, customer.id, calculate_total s (freshOrderId s)⟩
      (freshOrderId s) customer.id t0 hs3or rfl hfresh
  have htotv : total = calculate_total s3 (freshOrderId s) := by rw [htot]; exact ht2
  have htsum : calculate_total s3 (freshOrderId s)
      = ((selectForUpdate s pids).map (fun p => p.price)).sum :=
    calculate_total_final s pids (freshOrderId s) s3 hs3p hs3op
  have hpos : ∀ p ∈ selectForUpdate s pids, 0 < p.stock := by
    intro p hp
    have hnp := List.find?_eq_none.mp hfind p hp
    simp only [decide_eq_true_eq] at hnp
    exact not_le.mp hnp
  refine ⟨customer, hcust, rfl, rfl, hpne, not_ne_iff.mp hlen_ne, hpos, rfl,
    htotv.trans htsum, ?_, ?_, ?_, ?_⟩
  · rw [hs4]; exact hc2.trans hs3c
  · rw [hs4, hor2, htotv]
  · have hfin : s4.orderProducts
        = s.orderProducts.filter (fun pr => decide (pr.1 ≠ freshOrderId s))
          ++ (selectForUpdate s pids).map (fun p => (freshOrderId s, p.id)) := by
      rw [hs4]; exact hop2.trans hs3op
    rw [hfin, List.map_map]
    rfl
  · rw [hs4]; exact hp2.trans hs3p

/-! ## The claims -/

/-- Claim C1: for every successful PlaceOrder (CreateOrder) call, the
returned order's total amount equals the sum of the unit prices of its
distinct associated products (the associated ids are pairwise distinct),
computed both from the resolved in-transaction rows — whose prices the
stock decrement does not touch — and from the committed store's associated
rows; the mutation accepts no caller-supplied amount. -/
theorem createOrder_total_correct {s : St} {b : Option Nat} {cid : Nat}
    {pids : List Nat} {s' : St} {o : OrderRow} {rids : List Nat}
    (hnd : (s.products.map (fun p => p.id)).Nodup)
    (h : createOrder s b cid pids = CreateOrderResult.ok s' o rids) :
    rids.Nodup ∧
    o.totalAmount = ((selectForUpdate s pids).map (fun p => p.price)).sum ∧
    o.totalAmount = ((orderProductRows s' o.id).map (fun p => p.price)).sum := by
  obtain ⟨c, -, -, -, -, -, -, hrids, htot, -, -, hop, hprod⟩ :=
    createOrder_ok_spec hnd h
  have hop' : s'.orderProducts
      = s.orderProducts.filter (fun pr => decide (pr.1 ≠ o.id))
        ++ (selectForUpdate s pids).map (fun p => (o.id, p.id)) := by
    rw [hop, hrids, List.map_map]
    rfl
  refine ⟨hrids ▸ selectForUpdate_ids_nodup hnd, htot, ?_⟩
  rw [htot]
  exact (calculate_total_final s pids o.id s' hprod hop').symm

/-- Claim C1 witness: the spec's scenario — customer 1 orders P1 (price
100, stock 2) and P2 (price 50, stock 1); the committed total is 150. -/
theorem createOrder_total_correct_witness :
    ([1, 2] : List Nat).Nodup ∧
    (⟨1, 1, 150⟩ : OrderRow).totalAmount
      = ((selectForUpdate exSt [1, 2]).map (fun p => p.price)).sum ∧
    (⟨1, 1, 150⟩ : OrderRow).totalAmount
      = ((orderProductRows exSt' (⟨1, 1, 150⟩ : OrderRow).id).map (fun p => p.price)).sum :=
  @createOrder_total_correct exSt none 1 [1, 2] exSt' ⟨1, 1, 150⟩ [1, 2]
    (by decide) (by decide)

/-- Claim C2: PlaceOrder is all-or-nothing — a failed call (any
precondition failure, or a store-write failure at any point of the body)
leaves the order table, the association table and every product row
exactly as before the call; a successful call commits the new order, all
its associations and all stock decrements together. -/
theorem createOrder_atomic :
    (∀ (s : St) (b : Option Nat) (cid : Nat) (pids : List Nat) (s2 : St) (e : Err),
      createOrder s b cid pids = CreateOrderResult.err s2 e →
      s2.orders = s.orders ∧ s2.orderProducts = s.orderProducts ∧
        s2.products = s.products) ∧
    (∀ (s : St) (b : Option Nat) (cid : Nat) (pids : List Nat)
      (s' : St) (o : OrderRow) (rids : List Nat),
      (s.products.map (fun p => p.id)).Nodup →
      createOrder s b cid pids = CreateOrderResult.ok s' o rids →
      s'.orders = s.orders ++ [o] ∧
      (∀ x ∈ rids, (o.id, x) ∈ s'.orderProducts) ∧
      s'.products = s.products.map
        (fun q => if q.id ∈ pids then { q with stock := q.stock - 1 } else q)) := by
  constructor
  · intro s b cid pids s2 e h
    rw [createOrder_err_state h]
    exact ⟨rfl, rfl, rfl⟩
  · intro s b cid pids s' o rids hnd h
    obtain ⟨c, -, -, -, -, -, -, -, -, -, horders, hop, hprod⟩ :=
      createOrder_ok_spec hnd h
    refine ⟨horders, ?_, hprod⟩
    intro x hx
    rw [hop]
    exact List.mem_append_right _ (List.mem_map_of_mem _ hx)

/-- Claim C2 witness: a failing call on the empty store changes nothing,
and the spec's successful scenario call commits order, associations and
decrements together. -/
theorem createOrder_atomic_witness :
    (emptySt.orders = emptySt.orders ∧
      emptySt.orderProducts = emptySt.orderProducts ∧
      emptySt.products = emptySt.products) ∧
    (exSt'.orders = exSt.orders ++ [⟨1, 1, 150⟩] ∧
      (∀ x ∈ ([1, 2] : List Nat), ((1 : Nat), x) ∈ exSt'.orderProducts) ∧
      exSt'.products = exSt.products.map
        (fun q => if q.id ∈ [1, 2] then { q with stock := q.stock - 1 } else q)) := by
  constructor
  · exact createOrder_atomic.1 emptySt none 1 [] emptySt Err.invalidCustomer (by decide)
  · have hok := createOrder_atomic.2 exSt none 1 [1, 2] exSt' ⟨1, 1, 150⟩ [1, 2]
      (by decide) (by decide)
    exact hok

/-- Claim C3: on every successful PlaceOrder call, each product row whose
id is associated with the created order has stock exactly one less than
before the call, and every other product row is unchanged; the associated
ids are exactly those of the resolved (locking-read) products. -/
theorem createOrder_stock_decrement {s : St} {b : Option Nat} {cid : Nat}
    {pids : List Nat} {s' : St} {o : OrderRow} {rids : List Nat}
    (hnd : (s.products.map (fun p => p.id)).Nodup)
    (h : createOrder s b cid pids = CreateOrderResult.ok s' o rids) :
    s'.products = s.products.map
      (fun q => if q.id ∈ rids then { q with stock := q.stock - 1 } else q) ∧
    rids = (selectForUpdate s pids).map (fun p => p.id) := by
  obtain ⟨c, -, -, -, -, -, -, hrids, -, -, -, -, hprod⟩ :=
    createOrder_ok_spec hnd h
  refine ⟨?_, hrids⟩
  rw [hprod]
  refine List.map_congr_left (fun q hq => ?_)
  refine if_congr ?_ rfl rfl
  constructor
  · intro hmem
    rw [hrids]
    exact List.mem_map.mpr ⟨q, mem_selectForUpdate.mpr ⟨hq, hmem⟩, rfl⟩
  · intro hmem
    rw [hrids] at hmem
    obtain ⟨p, hp, hpq⟩ := List.mem_map.mp hmem
    exact hpq ▸ (mem_selectForUpdate.mp hp).2

/-- Claim C3 witness: in the spec's scenario the stocks of P1 and P2 drop
from 2 and 1 to 1 and 0, and no other row changes. -/
theorem createOrder_stock_decrement_witness :
    exSt'.products = exSt.products.map
      (fun q => if q.id ∈ ([1, 2] : List Nat) then { q with stock := q.stock - 1 } else q) ∧
    ([1, 2] : List Nat) = (selectForUpdate exSt [1, 2]).map (fun p => p.id) :=
  @createOrder_stock_decrement exSt none 1 [1, 2] exSt' ⟨1, 1, 150⟩ [1, 2]
    (by decide) (by decide)

/-- Claim C4: the invariant `Product.stock ≥ 0` is preserved by every
CreateOrder call, successful or failed: the per-product decrement only
runs after every resolved product passed the `stock > 0` check, and
failures roll back. -/
theorem createOrder_stock_nonneg {s : St} (b : Option Nat) (cid : Nat)
    (pids : List Nat)
    (hnd : (s.products.map (fun p => p.id)).Nodup)
    (hinv : ∀ p ∈ s.products, 0 ≤ p.stock) :
    ∀ p ∈ (resultState (createOrder s b cid pids)).products, 0 ≤ p.stock := by
  cases hres : createOrder s b cid pids with
  | err s2 e =>
    simp only [resultState]
    rw [createOrder_err_state hres]
    exact hinv
  | ok s' o rids =>
    obtain ⟨c, -, -, -, -, -, hpos, -, -, -, -, -, hprod⟩ :=
      createOrder_ok_spec hnd hres
    intro p' hp'
    simp only [resultState] at hp'
    rw [hprod] at hp'
    obtain ⟨q, hq, rfl⟩ := List.mem_map.mp hp'
    by_cases hmem : q.id ∈ pids
    · rw [if_pos hmem]
      have hq' : 0 < q.stock := hpos q (mem_selectForUpdate.mpr ⟨hq, hmem⟩)
      show 0 ≤ q.stock - 1
      omega
    · rw [if_neg hmem]
      exact hinv q hq

/-- Claim C4 witness: after the spec's scenario call every stored stock is
still non-negative. -/
theorem createOrder_stock_nonneg_witness :
    (resultState (createOrder exSt none 1 [1, 2])).products.all
      (fun p => decide (0 ≤ p.stock)) = true := by
  have hmain := @createOrder_stock_nonneg exSt none 1 [1, 2] (by decide) (by decide)
  exact List.all_eq_true.mpr (fun p hp => decide_eq_true (hmain p hp))

/-- Claim C5: with an existing customer, a non-empty request whose ids all
resolve, and some resolved product out of stock, the call fails with the
out-of-stock (Conflict) error naming an out-of-stock product, and the
store — every order row and every stock — is exactly as before the call. -/
theorem createOrder_out_of_stock {s : St} {b : Option Nat} {cid : Nat}
    {pids : List Nat} {c : Customer}
    (hc : getCustomer s cid = some c) (hne : pids ≠ [])
    (hlen : (selectForUpdate s pids).length = pids.length)
    (hzero : ∃ p ∈ selectForUpdate s pids, p.stock ≤ 0) :
    ∃ p ∈ selectForUpdate s pids, p.stock ≤ 0 ∧
      createOrder s b cid pids = CreateOrderResult.err s (Err.outOfStock p.name) := by
  cases hfind : (selectForUpdate s pids).find? (fun p => decide (p.stock ≤ 0)) with
  | none =>
    exfalso
    obtain ⟨p, hp, hps⟩ := hzero
    exact List.find?_eq_none.mp hfind p hp (decide_eq_true hps)
  | some q =>
    have hq1 : q ∈ selectForUpdate s pids := List.mem_of_find?_eq_some hfind
    have hq2 : q.stock ≤ 0 := by
      have hdq := List.find?_some hfind
      simpa using hdq
    refine ⟨q, hq1, hq2, ?_⟩
    unfold createOrder createOrderBody
    rw [hc]
    simp only [if_neg hne, if_neg (not_ne_iff.mpr hlen), hfind]

/-- Claim C5 witness: with product "P" at stock 0, the call fails with the
Conflict error naming "P" and the store is unchanged. -/
theorem createOrder_out_of_stock_witness :
    createOrder c5St none 1 [1] = CreateOrderResult.err c5St (Err.outOfStock "P") := by
  obtain ⟨p, hp, -, heq⟩ := @createOrder_out_of_stock c5St none 1 [1]
    ⟨1, "Ann", "ann@x.y", none⟩ (by decide) (by decide) (by decide)
    ⟨⟨1, "P", 10, 0⟩, by decide, by decide⟩
  have hp' : p = ⟨1, "P", 10, 0⟩ := by
    have h1 : selectForUpdate c5St [1] = [⟨1, "P", 10, 0⟩] := by decide
    rw [h1] at hp
    exact List.mem_singleton.mp hp
  rw [hp'] at heq
  exact heq

/-- Claim C6 counterexample: in the store `c6St` both products (row order:
"A" with id 1, then "B" with id 2) have stock 0; the request lists id 2
before id 1, so the first zero-stock product in input order is "B" — yet
the call reports "A", the first zero-stock product in the store's row
order, refuting the claimed input-order reporting. -/
theorem createOrder_check_order_cex :
    createOrder c6St none 1 [2, 1] = CreateOrderResult.err c6St (Err.outOfStock "A") ∧
    Err.outOfStock "A" ≠ Err.outOfStock "B" := by
  exact ⟨by decide, by decide⟩

/-- Claim C6 amended: with an existing customer and a non-empty request,
the resolved-count check runs first — a count mismatch fails with the
invalid-ids error regardless of any stock — and only when the counts match
does the stock check fail, on the first zero-stock product in the order the
resolved rows come back from the store (queryset iteration order, i.e. the
product table's row order), not in the order the ids appear in the input. -/
theorem createOrder_validation_order {s : St} {b : Option Nat} {cid : Nat}
    {pids : List Nat} {c : Customer}
    (hc : getCustomer s cid = some c) (hne : pids ≠ []) :
    ((selectForUpdate s pids).length ≠ pids.length →
      createOrder s b cid pids = CreateOrderResult.err s Err.invalidProductIds) ∧
    (∀ p, (selectForUpdate s pids).length = pids.length →
      (selectForUpdate s pids).find? (fun q => decide (q.stock ≤ 0)) = some p →
      createOrder s b cid pids = CreateOrderResult.err s (Err.outOfStock p.name)) := by
  constructor
  · intro hmis
    unfold createOrder createOrderBody
    rw [hc]
    simp only [if_neg hne, if_pos hmis]
  · intro p hlen hfind
    unfold createOrder createOrderBody
    rw [hc]
    simp only [if_neg hne, if_neg (not_ne_iff.mpr hlen), hfind]

/-- Claim C6 amended witness: a count mismatch (duplicate id against a
fully stocked store) reports invalid ids before any stock check, and with
matching counts the reported zero-stock product is the first one in store
row order ("A"). -/
theorem createOrder_validation_order_witness :
    createOrder c10St none 1 [1, 1] = CreateOrderResult.err c10St Err.invalidProductIds ∧
    createOrder c6St none 1 [2, 1] = CreateOrderResult.err c6St (Err.outOfStock "A") :=
  ⟨(@createOrder_validation_order c10St none 1 [1, 1] ⟨1, "Ann", "ann@x.y", none⟩
      (by decide) (by decide)).1 (by decide),
   (@createOrder_validation_order c6St none 1 [2, 1] ⟨1, "Ann", "ann@x.y", none⟩
      (by decide) (by decide)).2 ⟨1, "A", 5, 0⟩ (by decide) (by decide)⟩

/-- Claim C7 counterexample: create an order over product "P" (price 100),
so the stored total is 100; re-price "P" to 200 and save the order again —
`Order.save` recomputes the total on every save, so the stored total
becomes 200, refuting "any later save of the Order leaves total_amount
equal to the sum of prices as of creation". -/
theorem order_total_reprice_cex :
    createOrder c7St none 1 [1] = CreateOrderResult.ok c7St' ⟨1, 1, 100⟩ [1] ∧
    (orderSaveData (repriceProduct c7St' 1 200) 1 1 100).2 = 200 ∧
    (orderSaveData (repriceProduct c7St' 1 200) 1 1 100).1.orders = [⟨1, 1, 200⟩] ∧
    (200 : Int) ≠ 100 := by
  refine ⟨by decide, by decide, by decide, by decide⟩

/-- Claim C7 amended: re-pricing a product by itself never changes any
stored order row, so a created order's total stays as of creation until the
order is saved again (no operation in this repository saves an order after
its creation); but `Order.save` re-derives the total from the current
in-store prices every time it runs, so a save after a re-price updates the
stored total. -/
theorem order_total_frozen_unless_saved :
    (∀ (s : St) (pid : Nat) (np : Int), (repriceProduct s pid np).orders = s.orders) ∧
    (∀ (s : St) (oid cid : Nat) (t : Int),
      (orderSaveData s oid cid t).2 = calculate_total s oid) :=
  ⟨fun _ _ _ => rfl, fun _ _ _ _ => rfl⟩

/-- Claim C8 counterexample: with an empty product list but a customer id
that does not resolve, the call fails with the invalid-customer (NotFound)
error — not the InvalidArgument (empty-list) error the claim asserts for
every empty-list call (the customer check runs first). -/
theorem createOrder_empty_badcustomer_cex :
    createOrder emptySt none 1 [] = CreateOrderResult.err emptySt Err.invalidCustomer ∧
    Err.invalidCustomer ≠ Err.emptyProductList := by
  exact ⟨by decide, by decide⟩

/-- Claim C8 amended: an empty product list always fails and creates no
order — the store is returned unchanged whatever its contents — and the
error is the InvalidArgument (empty-list) error provided the customer id
resolves; with an unresolvable customer the NotFound check fires first. -/
theorem createOrder_empty_list {s : St} {b : Option Nat} {cid : Nat} :
    (∃ e, createOrder s b cid [] = CreateOrderResult.err s e) ∧
    (∀ c, getCustomer s cid = some c →
      createOrder s b cid [] = CreateOrderResult.err s Err.emptyProductList) := by
  constructor
  · cases hc : getCustomer s cid with
    | none =>
      refine ⟨Err.invalidCustomer, ?_⟩
      unfold createOrder createOrderBody
      rw [hc]
    | some c =>
      refine ⟨Err.emptyProductList, ?_⟩
      unfold createOrder createOrderBody
      rw [hc]
      simp
  · intro c hc
    unfold createOrder createOrderBody
    rw [hc]
    simp

/-- Claim C8 amended witness: on a store whose customer 1 exists, the
empty-list call fails with the empty-list error and leaves the store
unchanged. -/
theorem createOrder_empty_list_witness :
    createOrder c5St none 1 [] = CreateOrderResult.err c5St Err.emptyProductList :=
  (@createOrder_empty_list c5St none 1).2 ⟨1, "Ann", "ann@x.y", none⟩ (by decide)

/-- Claim C10: a request repeating a product id (with an existing customer
and a store whose product ids are unique, as a primary key guarantees)
always fails with the invalid-ids error and an unchanged store: the store
resolves the deduplicated id set, so the resolved count is strictly below
the request length and the count check rejects; hence a product is never
reserved twice by one request. -/
theorem createOrder_duplicate_ids {s : St} {b : Option Nat} {cid : Nat}
    {pids : List Nat} {c : Customer}
    (hnd : (s.products.map (fun p => p.id)).Nodup)
    (hc : getCustomer s cid = some c) (hdup : ¬ pids.Nodup) :
    (selectForUpdate s pids).length < pids.length ∧
    createOrder s b cid pids = CreateOrderResult.err s Err.invalidProductIds := by
  have hlt : (selectForUpdate s pids).length < pids.length := by
    have hle : (selectForUpdate s pids).length ≤ pids.dedup.length := by
      have hlnd : ((selectForUpdate s pids).map (fun p => p.id)).Nodup :=
        selectForUpdate_ids_nodup hnd
      have hsub : ((selectForUpdate s pids).map (fun p => p.id)).toFinset
          ⊆ pids.toFinset := by
        intro x hx
        obtain ⟨p, hp, rfl⟩ := List.mem_map.mp (List.mem_toFinset.mp hx)
        exact List.mem_toFinset.mpr (mem_selectForUpdate.mp hp).2
      calc (selectForUpdate s pids).length
          = ((selectForUpdate s pids).map (fun p => p.id)).length :=
            (List.length_map _ _).symm
        _ = ((selectForUpdate s pids).map (fun p => p.id)).toFinset.card := by
            rw [List.card_toFinset, List.dedup_eq_self.mpr hlnd]
        _ ≤ pids.toFinset.card := Finset.card_le_card hsub
        _ = pids.dedup.length := List.card_toFinset pids
    have hdlt : pids.dedup.length < pids.length := by
      refine Nat.lt_of_le_of_ne (List.Sublist.length_le (List.dedup_sublist pids)) ?_
      intro hdl
      exact hdup (List.dedup_eq_self.mp
        (List.Sublist.eq_of_length (List.dedup_sublist pids) hdl))
    exact Nat.lt_of_le_of_lt hle hdlt
  have hne : pids ≠ [] := by
    intro hnil
    exact hdup (hnil ▸ List.nodup_nil)
  refine ⟨hlt, ?_⟩
  unfold createOrder createOrderBody
  rw [hc]
  simp only [if_neg hne, if_pos (Nat.ne_of_lt hlt)]

/-- Every bulk-registration item lands in exactly one of the two returned
lists: the created count plus the error count is the input count. -/
theorem bulk_length (fc : CustomerInput → Bool) :
    ∀ (inputs : List CustomerInput) (s : St),
    (bulkCreateCustomers fc s inputs).2.1.length
      + (bulkCreateCustomers fc s inputs).2.2.length = inputs.length := by
  intro inputs
  induction inputs with
  | nil => intro s; rfl
  | cons d rest ih =>
    intro s
    by_cases h1 : s.customers.any (fun c => decide (c.email = d.email)) = true
    · simp only [bulkCreateCustomers, if_pos h1, List.length_cons]
      have hr := ih s
      omega
    · by_cases h2 : fc d = true
      · simp only [bulkCreateCustomers, if_neg h1, if_pos h2, List.length_cons]
        have hr := ih { s with customers :=
          s.customers ++ [⟨freshCustomerId s, d.name, d.email, d.phone⟩] }
        omega
      · simp only [bulkCreateCustomers, if_neg h1, if_neg h2, List.length_cons]
        have hr := ih s
        omega

/-- A failing item in the middle of a bulk registration (duplicate against
the store reached at its position, or invalid) leaves the final store and
the created list exactly as if the item were absent, and adds exactly one
error entry. -/
theorem bulk_skip_middle (fc : CustomerInput → Bool) :
    ∀ (l1 : List CustomerInput) (s : St) (d : CustomerInput) (l2 : List CustomerInput),
    ((bulkCreateCustomers fc s l1).1.customers.any
        (fun c => decide (c.email = d.email)) = true ∨ fc d = false) →
    (bulkCreateCustomers fc s (l1 ++ [d] ++ l2)).1
        = (bulkCreateCustomers fc s (l1 ++ l2)).1 ∧
    (bulkCreateCustomers fc s (l1 ++ [d] ++ l2)).2.1
        = (bulkCreateCustomers fc s (l1 ++ l2)).2.1 ∧
    (bulkCreateCustomers fc s (l1 ++ [d] ++ l2)).2.2.length
        = (bulkCreateCustomers fc s (l1 ++ l2)).2.2.length + 1 := by
  intro l1
  induction l1 with
  | nil =>
    intro s d l2 hfail
    rcases hfail with h1 | h2
    · simp only [bulkCreateCustomers] at h1
      simp [bulkCreateCustomers, h1]
    · by_cases h1 : s.customers.any (fun c => decide (c.email = d.email)) = true
      · simp [bulkCreateCustomers, h1]
      · simp [bulkCreateCustomers, h1, h2]
  | cons a l1' ih =>
    intro s d l2 hfail
    simp only [List.cons_append]
    by_cases h1 : s.customers.any (fun c => decide (c.email = a.email)) = true
    · simp only [bulkCreateCustomers, if_pos h1] at hfail ⊢
      obtain ⟨g1, g2, g3⟩ := ih s d l2 hfail
      refine ⟨g1, g2, ?_⟩
      simp only [List.length_cons, g3]
    · by_cases h2 : fc a = true
      · simp only [bulkCreateCustomers, if_neg h1, if_pos h2] at hfail ⊢
        obtain ⟨g1, g2, g3⟩ := ih _ d l2 hfail
        refine ⟨g1, by simp only [g2], ?_⟩
        simp only [List.length_cons, g3]
      · simp only [bulkCreateCustomers, if_neg h1, if_neg h2] at hfail ⊢
        obtain ⟨g1, g2, g3⟩ := ih s d l2 hfail
        refine ⟨g1, g2, ?_⟩
        simp only [List.length_cons, g3]

/-- An item that is valid and not a duplicate at its position is created:
the created list of the whole run extends the prefix's created list with
the new customer (followed by whatever the suffix creates). -/
theorem bulk_create_middle (fc : CustomerInput → Bool) :
    ∀ (l1 : List CustomerInput) (s : St) (d : CustomerInput) (l2 : List CustomerInput),
    (bulkCreateCustomers fc s l1).1.customers.any
        (fun c => decide (c.email = d.email)) = false →
    fc d = true →
    ∃ suffix : List Customer,
      (bulkCreateCustomers fc s (l1 ++ [d] ++ l2)).2.1
        = (bulkCreateCustomers fc s l1).2.1
          ++ ⟨freshCustomerId (bulkCreateCustomers fc s l1).1, d.name, d.email, d.phone⟩
            :: suffix := by
  intro l1
  induction l1 with
  | nil =>
    intro s d l2 hdup hfc
    simp only [bulkCreateCustomers] at hdup
    refine ⟨(bulkCreateCustomers fc
      { s with customers :=
          s.customers ++ [⟨freshCustomerId s, d.name, d.email, d.phone⟩] } l2).2.1, ?_⟩
    simp [bulkCreateCustomers, hdup, hfc]
  | cons a l1' ih =>
    intro s d l2 hdup hfc
    simp only [List.cons_append]
    by_cases h1 : s.customers.any (fun c => decide (c.email = a.email)) = true
    · simp only [bulkCreateCustomers, if_pos h1] at hdup ⊢
      exact ih s d l2 hdup hfc
    · by_cases h2 : fc a = true
      · simp only [bulkCreateCustomers, if_neg h1, if_pos h2] at hdup ⊢
        obtain ⟨suffix, hs⟩ := ih _ d l2 hdup hfc
        exact ⟨suffix, by simp only [hs, List.cons_append]⟩
      · simp only [bulkCreateCustomers, if_neg h1, if_neg h2] at hdup ⊢
        exact ih s d l2 hdup hfc

/-- Claim C9: bulk customer registration is per-item, not all-or-nothing —
the created and error lists together account for every input item (one
entry each); an item failing at its position (duplicate email against the
store it sees, or failing validation) contributes one error entry while
leaving the final store and all other creations untouched; and an item
valid and non-duplicate at its position is created. -/
theorem bulkCreateCustomers_per_item (fc : CustomerInput → Bool) :
    (∀ (s : St) (inputs : List CustomerInput),
      (bulkCreateCustomers fc s inputs).2.1.length
        + (bulkCreateCustomers fc s inputs).2.2.length = inputs.length) ∧
    (∀ (s : St) (l1 : List CustomerInput) (d : CustomerInput) (l2 : List CustomerInput),
      ((bulkCreateCustomers fc s l1).1.customers.any
          (fun c => decide (c.email = d.email)) = true ∨ fc d = false) →
      (bulkCreateCustomers fc s (l1 ++ [d] ++ l2)).1
          = (bulkCreateCustomers fc s (l1 ++ l2)).1 ∧
      (bulkCreateCustomers fc s (l1 ++ [d] ++ l2)).2.1
          = (bulkCreateCustomers fc s (l1 ++ l2)).2.1 ∧
      (bulkCreateCustomers fc s (l1 ++ [d] ++ l2)).2.2.length
          = (bulkCreateCustomers fc s (l1 ++ l2)).2.2.length + 1) ∧
    (∀ (s : St) (l1 : List CustomerInput) (d : CustomerInput) (l2 : List CustomerInput),
      (bulkCreateCustomers fc s l1).1.customers.any
          (fun c => decide (c.email = d.email)) = false →
      fc d = true →
      ∃ suffix : List Customer,
        (bulkCreateCustomers fc s (l1 ++ [d] ++ l2)).2.1
          = (bulkCreateCustomers fc s l1).2.1
            ++ ⟨freshCustomerId (bulkCreateCustomers fc s l1).1, d.name, d.email, d.phone⟩
              :: suffix) :=
  ⟨fun s inputs => bulk_length fc inputs s,
   fun s l1 d l2 h => bulk_skip_middle fc l1 s d l2 h,
   fun s l1 d l2 h1 h2 => bulk_create_middle fc l1 s d l2 h1 h2⟩

/-- Claim C9 witness: over a store already holding `e@x.y`, the run
[N1, invalid, N2] creates two customers and records one error; dropping
the invalid middle item changes neither the final store's customer table
nor the created list; and a valid middle item N3 is created. -/
theorem bulkCreateCustomers_per_item_witness :
    ((bulkCreateCustomers exFc bulkSt [inN1, inBad, inN2]).2.1.length
      + (bulkCreateCustomers exFc bulkSt [inN1, inBad, inN2]).2.2.length = 3) ∧
    (bulkCreateCustomers exFc bulkSt ([inN1] ++ [inBad] ++ [inN2])).2.1
      = (bulkCreateCustomers exFc bulkSt ([inN1] ++ [inN2])).2.1 ∧
    (⟨3, "N3", "n3@x.y", none⟩ : Customer)
      ∈ (bulkCreateCustomers exFc bulkSt ([inN1] ++ [inN3] ++ [inN2])).2.1 := by
  refine ⟨(bulkCreateCustomers_per_item exFc).1 bulkSt [inN1, inBad, inN2],
    ((bulkCreateCustomers_per_item exFc).2.1 bulkSt [inN1] inBad [inN2]
      (Or.inr (by decide))).2.1, ?_⟩
  obtain ⟨suffix, hs⟩ := (bulkCreateCustomers_per_item exFc).2.2 bulkSt [inN1] inN3 [inN2]
    (by decide) (by decide)
  rw [hs]
  have h3 : (⟨3, "N3", "n3@x.y", none⟩ : Customer)
      = ⟨freshCustomerId (bulkCreateCustomers exFc bulkSt [inN1]).1,
         inN3.name, inN3.email, inN3.phone⟩ := by decide
  rw [h3]
  exact List.mem_append_right _ (List.mem_cons_self _ _)

/-- Claim C10 witness: the request [1, 1] against a fully stocked store
with product 1 resolves one row against a request of length two, and fails
with the invalid-ids error. -/
theorem createOrder_duplicate_ids_witness :
    (selectForUpdate c10St [1, 1]).length < ([1, 1] : List Nat).length ∧
    createOrder c10St none 1 [1, 1] = CreateOrderResult.err c10St Err.invalidProductIds :=
  @createOrder_duplicate_ids c10St none 1 [1, 1] ⟨1, "Ann", "ann@x.y", none⟩
    (by decide) (by decide) (by decide)

end CRM
